import Mathlib

/-!
Shallow embedding of the `wash` server core (`src/server/index.js`):
the trade store (`insertTrade`), the cluster aggregator (`computeClusters`),
the per-exchange backfill branches of `POST /api/backfill`, the p-retry
wrapper used by these branches, and the numeric-parameter coercions at the
HTTP boundary.  JavaScript numbers are embedded as `ℚ`; payload fields that
the server reads through `||`-chains or strict equality are embedded as a
small JavaScript value type `JVal`.
-/

namespace Wash

/-- A JavaScript value, restricted to the shapes the server actually reads
from exchange payloads and request bodies: `undefined`, booleans, numbers
and strings.  Numeric-string payload fields (for example OKX's string
timestamps, which the code passes through `Number(...)`/`parseFloat(...)`)
are embedded directly as `jnum` of their numeric value. -/
inductive JVal where
  | undef
  | jbool (b : Bool)
  | jnum (q : ℚ)
  | jstr (s : String)
deriving DecidableEq, Repr

/-- JavaScript truthiness for `JVal` (`undefined`, `false`, `0` and `""`
are falsy). -/
def JVal.truthy : JVal → Bool
  | .undef => false
  | .jbool b => b
  | .jnum q => q != 0
  | .jstr s => s != ""

/-- The JavaScript `a || b` operator on values. -/
def jsOr (a b : JVal) : JVal := if a.truthy then a else b

/-- Coercion of a `JVal` to a string, as in a template literal.
(The exact digit rendering of a number is irrelevant to the claims; this
model renders rationals with `toString`, which is injective.) -/
def JVal.display : JVal → String
  | .undef => "undefined"
  | .jbool b => if b then "true" else "false"
  | .jnum q => toString q
  | .jstr s => s

/-- Model of `parseFloat`/`Number` applied to a payload value whose numeric
content is already embedded as `jnum`. -/
def jsParseFloat : JVal → ℚ
  | .jnum q => q
  | _ => 0

/-- One row of the `trades` table
(`id TEXT PRIMARY KEY, exchange, symbol, price REAL, qty REAL, side, ts`). -/
structure Trade where
  id : String
  exchange : String
  symbol : String
  price : ℚ
  qty : ℚ
  side : String
  ts : ℚ
deriving DecidableEq, Repr

/-- `insertTrade` (src/server/index.js:37-40): a prepared
`INSERT OR IGNORE INTO trades ...` keyed by the `id` primary key.  The
store is modelled as the list of rows in insertion order; a duplicate `id`
leaves the store unchanged. -/
def insertTrade (store : List Trade) (t : Trade) : List Trade :=
  if store.any (fun u => u.id == t.id) then store else store ++ [t]

/-- Inserting each trade of a batch in order (the `for (const t of data)`
loops of the backfill branches). -/
def insertAll (store : List Trade) (ts : List Trade) : List Trade :=
  ts.foldl insertTrade store

/-- JavaScript `Math.round`: round to nearest, ties toward `+∞`
(`Math.round x = ⌊x + 0.5⌋`). -/
def jround (x : ℚ) : ℤ := ⌊x + 1/2⌋

/-- One aggregated price bucket (`{price, volume, lastTs}` in
`computeClusters`). -/
structure Bucket where
  price : ℚ
  volume : ℚ
  lastTs : ℚ
deriving DecidableEq, Repr

/-- The bucket price of a trade price:
`Math.round(r.price / bucketSize) * bucketSize` (src/server/index.js:51). -/
def bucketOf (bucketSize price : ℚ) : ℚ :=
  (jround (price / bucketSize) : ℚ) * bucketSize

/-- One step of the bucket-accumulation loop (src/server/index.js:49-57).
The JS `Map` keyed by `pb.toFixed(8)` is modelled as a list of buckets in
first-insertion order, updated in place at the first entry whose price is
`pb`.  (With exact rational arithmetic the `toFixed(8)` key canonicalisation
is the bucket price itself.)  A fresh bucket starts from
`{volume: 0, lastTs: 0}` and is then updated, hence `0 + qty` and
`max 0 ts`. -/
def addToBuckets (pb qty ts : ℚ) : List Bucket → List Bucket
  | [] => [⟨pb, 0 + qty, max 0 ts⟩]
  | b :: bs =>
    if b.price = pb then ⟨b.price, b.volume + qty, max b.lastTs ts⟩ :: bs
    else b :: addToBuckets pb qty ts bs

/-- The whole accumulation loop over the fetched rows. -/
def buildBuckets (bucketSize : ℚ) (rows : List Trade) : List Bucket :=
  rows.foldl (fun m r => addToBuckets (bucketOf bucketSize r.price) r.qty r.ts m) []

/-- Insert a bucket into a descending-by-volume list, after all entries of
volume `≥` its own (the stable behaviour of
`sort((a,b) => b.volume - a.volume)`). -/
def insertDesc (x : Bucket) : List Bucket → List Bucket
  | [] => [x]
  | y :: ys => if y.volume < x.volume then x :: y :: ys else y :: insertDesc x ys

/-- Stable sort of the bucket list, descending by volume
(src/server/index.js:58). -/
def sortByVolume (l : List Bucket) : List Bucket :=
  l.foldl (fun acc x => insertDesc x acc) []

/-- The SQL row filter of `computeClusters`
(`WHERE symbol = ? AND exchange = ? AND ts >= ?`). -/
def tradeMatches (symbol exchange : String) (since : ℚ) (t : Trade) : Bool :=
  t.symbol == symbol && t.exchange == exchange && decide (since ≤ t.ts)

/-- `computeClusters(symbol, exchange, periodMs, bucketSize, limit)`
(src/server/index.js:43-60), with `Date.now()` passed explicitly as `now`
and the row set taken from the modelled store.  JS-side defaults are
`periodMs = 3600000`, `bucketSize = 1.0`, `limit = 100`; every caller in
the source passes all five arguments. -/
def computeClusters (store : List Trade) (symbol exchange : String) (now : ℚ)
    (periodMs : ℚ) (bucketSize : ℚ) (limit : ℕ) : List Bucket :=
  let since := now - periodMs
  let rows := store.filter (tradeMatches symbol exchange since)
  if rows.isEmpty then []
  else (sortByVolume (buildBuckets bucketSize rows)).take limit

/-!
### p-retry

The backfill branches wrap each connector call in
`pRetry(fn, {retries, ...})`.  In the `p-retry` library, `retries` is the
number of retries after the initial attempt, so a call may run the
operation up to `retries + 1` times; the delay before retry `i`
(0-indexed) is `minTimeout * factor ^ i` (capped at `maxTimeout`, which is
left at its infinite default here), with defaults `minTimeout = 1000` and
`factor = 2`.  The operation is modelled as a function from the attempt
index to an outcome; the model returns the final result together with the
number of attempts actually consumed.
-/

/-- Attempt loop of p-retry: `used` attempts already made, `fuel` attempts
still allowed.  Always called with `fuel ≥ 1`. -/
def pRetryAux (op : ℕ → Except String α) : ℕ → ℕ → Except String α × ℕ
  | used, 0 => (.error "", used)
  | used, fuel + 1 =>
    match op used with
    | .ok a => (.ok a, used + 1)
    | .error e => if fuel = 0 then (.error e, used + 1) else pRetryAux op (used + 1) fuel

/-- `pRetry(op, {retries})`: run `op` up to `retries + 1` times, returning
the first success, or the last error once all attempts are exhausted,
together with the number of attempts consumed. -/
def pRetryRun (retries : ℕ) (op : ℕ → Except String α) : Except String α × ℕ :=
  pRetryAux op 0 (retries + 1)

/-- Delay before retry number `attempt` (0-indexed):
`minTimeout * factor ^ attempt`. -/
def pRetryTimeout (minTimeout factor attempt : ℕ) : ℕ := minTimeout * factor ^ attempt

/-- `{retries: 3, minTimeout: 500}` of the binance window fetch
(src/server/index.js:97). -/
def binanceRetries : ℕ := 3

/-- `minTimeout: 500` of the binance window fetch. -/
def binanceMinTimeout : ℕ := 500

/-- `{retries: 2}` of the OKX fetch (src/server/index.js:119). -/
def okxRetries : ℕ := 2

/-- `{retries: 2}` of the Bybit fetch (src/server/index.js:135). -/
def bybitRetries : ℕ := 2

/-- p-retry's default backoff factor. -/
def pRetryFactor : ℕ := 2

/-!
### Connectors and payload normalization
-/

/-- One raw binance aggTrades payload entry, restricted to the fields the
server reads (src/server/index.js:100-108).  `p`/`q` are the numeric
values of the price/quantity strings (`parseFloat(t.p)`, `parseFloat(t.q)`).
`rand` stands for the `Math.random()` draw used as the last resort of the
id chain, threaded as data to keep the model deterministic. -/
structure BinanceRaw where
  a : JVal
  aggregateId : JVal
  tradeId : JVal
  p : ℚ
  q : ℚ
  m : JVal
  T : JVal
  rand : ℚ
deriving DecidableEq, Repr

/-- Normalization of one binance payload entry into a `Trade`
(src/server/index.js:100-108), with `Date.now()` passed as `now`. -/
def binanceTrade (symbol : String) (now : ℚ) (t : BinanceRaw) : Trade :=
  { id := symbol ++ "-binance-"
        ++ (jsOr (jsOr (jsOr t.a t.aggregateId) t.tradeId) (.jnum t.rand)).display
    exchange := "binance"
    symbol := symbol
    price := t.p
    qty := t.q
    side := if t.m = .jbool true then "sell" else "buy"
    ts := jsParseFloat (jsOr t.T (.jnum now)) }

/-- One raw OKX trade payload entry (fields read in
src/server/index.js:122-130).  String-encoded numbers (`ts`, `sz`, `qty`)
are embedded as `jnum` of their numeric value. -/
structure OkxRaw where
  ts : JVal
  tradeId : JVal
  p : ℚ
  sz : JVal
  qty : JVal
  side : JVal
  rand : ℚ
deriving DecidableEq, Repr

/-- Normalization of one OKX payload entry (src/server/index.js:122-130). -/
def okxTrade (symbol : String) (now : ℚ) (t : OkxRaw) : Trade :=
  { id := symbol ++ "-okx-" ++ (jsOr (jsOr t.ts t.tradeId) (.jnum t.rand)).display
    exchange := "okx"
    symbol := symbol
    price := t.p
    qty := jsParseFloat (jsOr (jsOr t.sz t.qty) (.jnum 0))
    side := if t.side = .jstr "sell" ∨ t.side = .jstr "S" then "sell" else "buy"
    ts := jsParseFloat (jsOr t.ts (.jnum now)) }

/-- One raw Bybit trade payload entry (fields read in
src/server/index.js:138-146). -/
structure BybitRaw where
  trade_time_ms : JVal
  price : ℚ
  qty : JVal
  size : JVal
  side : JVal
  rand : ℚ
deriving DecidableEq, Repr

/-- Normalization of one Bybit payload entry (src/server/index.js:138-146). -/
def bybitTrade (symbol : String) (now : ℚ) (t : BybitRaw) : Trade :=
  { id := symbol ++ "-bybit-" ++ (jsOr t.trade_time_ms (.jnum t.rand)).display
    exchange := "bybit"
    symbol := symbol
    price := t.price
    qty := jsParseFloat (jsOr (jsOr t.qty t.size) (.jnum 0))
    side := if t.side = .jstr "Sell" then "sell" else "buy"
    ts := jsParseFloat (jsOr t.trade_time_ms (.jnum now)) }

/-- `symbol.replace(/USDT$/i, '-USDT-SWAP')` — the best-effort instId
mapping of the OKX branch (src/server/index.js:118). -/
def okxInstId (symbol : String) : String :=
  if symbol.toUpper.endsWith "USDT" then symbol.dropRight 4 ++ "-USDT-SWAP"
  else symbol

/-!
### The backfill orchestrator (`POST /api/backfill`)
-/

/-- The 1-hour pagination window of the binance branch
(`const windowMs = 60*60*1000`, src/server/index.js:93). -/
def windowMs : ℚ := 3600000

/-- The windows visited by `for (let s = start; s < end; s += windowMs)`
(src/server/index.js:94-95): window `i` starts at `start + i * windowMs`
and ends at `Math.min(end, s + windowMs - 1)`; the loop runs while
`s < end`, i.e. for `i < ⌈(end - start) / windowMs⌉`. -/
def binanceWindows (start endT : ℚ) : List (ℚ × ℚ) :=
  (List.range (⌈(endT - start) / windowMs⌉).toNat).map
    (fun i => (start + i * windowMs, min endT (start + i * windowMs + windowMs - 1)))

/-- One window's fetch after p-retry:
`await pRetry(() => fetchBinanceAggTrades(symbol, s, e, 1000), {retries: 3, minTimeout: 500})`.
The connector is a function of the window bounds and the attempt index. -/
def retriedBinanceFetch (fetch : ℚ → ℚ → ℕ → Except String (List BinanceRaw))
    (s e : ℚ) : Except String (List BinanceRaw) :=
  (pRetryRun binanceRetries (fetch s e)).1

/-- The binance window loop (src/server/index.js:94-114).  A window whose
retried fetch throws propagates to the surrounding `catch` of the handler:
the loop stops, keeping the inserts already made, and reports the error.
(The `Array.isArray(data) && data.length` guard is vacuous here: the
fetch result is already a list, and an empty list inserts nothing.) -/
def runBinanceWindows (fetch : ℚ → ℚ → ℕ → Except String (List BinanceRaw))
    (symbol : String) (now : ℚ) :
    List (ℚ × ℚ) → List Trade → List Trade × Option String
  | [], store => (store, none)
  | (s, e) :: rest, store =>
    match retriedBinanceFetch fetch s e with
    | .error msg => (store, some msg)
    | .ok data =>
      runBinanceWindows fetch symbol now rest
        (insertAll store (data.map (binanceTrade symbol now)))

/-- The numeric value of a request parameter after JavaScript's
`Number(...)`: absent (`Number(undefined) = NaN`), present but
non-numeric (`NaN`), or a number. -/
inductive NumParam where
  | missing
  | nan
  | num (q : ℚ)
deriving DecidableEq, Repr

/-- `Number(x) || d`: `NaN` and `0` are falsy, so an absent, non-numeric
or zero parameter falls back to the default. -/
def jsNumOr (p : NumParam) (d : ℚ) : ℚ :=
  match p with
  | .missing => d
  | .nan => d
  | .num q => if q = 0 then d else q

/-- `Number(req.query.limit) || 50` (src/server/index.js:163). -/
def resolveLimit (p : NumParam) : ℚ := jsNumOr p 50

/-- `Number(req.query.periodMs) || (24*3600*1000)` (src/server/index.js:164). -/
def resolvePeriodMs (p : NumParam) : ℚ := jsNumOr p (24 * 3600 * 1000)

/-- `Number(req.query.bucket) || 1.0` (src/server/index.js:165). -/
def resolveBucket (p : NumParam) : ℚ := jsNumOr p 1

/-- `Number(startTs) || (Date.now() - 24*3600*1000)` (src/server/index.js:88). -/
def resolveStartTs (p : NumParam) (now : ℚ) : ℚ := jsNumOr p (now - 24 * 3600 * 1000)

/-- `Number(endTs) || Date.now()` (src/server/index.js:89). -/
def resolveEndTs (p : NumParam) (now : ℚ) : ℚ := jsNumOr p now

/-- Truthiness of an optional string request field (`undefined` and `""`
are falsy). -/
def optTruthy : Option String → Bool
  | none => false
  | some s => s != ""

/-- `x || d` for an optional string query parameter. -/
def jsStrOr (s : Option String) (d : String) : String :=
  match s with
  | none => d
  | some v => if v = "" then d else v

/-- The three response shapes of the backfill handler:
`res.json({ok, message})`, `res.status(400).json({error})` and
`res.status(500).json({error: String(e)})`. -/
inductive BackfillResp where
  | ok (message : String)
  | badRequest (error : String)
  | serverError (error : String)
deriving DecidableEq, Repr

/-- The connectors, abstracted as outcome functions: each takes the
request parameters the code passes (symbol or instId, window bounds for
binance) plus the attempt index, and yields the parsed body or a thrown
error.  For OKX/Bybit, `none` models a body whose `data`/`result` field is
falsy (`if (data && data.data)` / `if (data && data.result)`). -/
structure BackfillFetch where
  binance : String → ℚ → ℚ → ℕ → Except String (List BinanceRaw)
  okx : String → ℕ → Except String (Option (List OkxRaw))
  bybit : String → ℕ → Except String (Option (List BybitRaw))

/-- The success message of the backfill handler (src/server/index.js:151). -/
def doneMsg : String := "backfill done (best-effort, check DB)"

/-- `POST /api/backfill` (src/server/index.js:85-156), with `Date.now()`
passed as `now` and the store threaded explicitly.  Falsy `symbol` or
`exchange` is a 400; the `if/else if` chain handles the three known
exchanges; an unknown exchange matches no branch and falls through to the
shared `res.json({ok: true, ...})`; a thrown fetch error is caught and
returned as a 500, keeping the inserts already committed. -/
def backfillHandler (fetch : BackfillFetch) (store : List Trade) (now : ℚ)
    (symbol exchange : Option String) (startTs endTs : NumParam) :
    List Trade × BackfillResp :=
  if !(optTruthy symbol) || !(optTruthy exchange) then
    (store, .badRequest "symbol, exchange required")
  else
    let sym := symbol.getD ""
    let ex := exchange.getD ""
    let start := resolveStartTs startTs now
    let endT := resolveEndTs endTs now
    if ex = "binance" then
      match runBinanceWindows (fetch.binance sym) sym now (binanceWindows start endT) store with
      | (st, none) => (st, .ok doneMsg)
      | (st, some msg) => (st, .serverError msg)
    else if ex = "okx" then
      match (pRetryRun okxRetries (fetch.okx (okxInstId sym))).1 with
      | .error msg => (store, .serverError msg)
      | .ok none => (store, .ok doneMsg)
      | .ok (some raws) => (insertAll store (raws.map (okxTrade sym now)), .ok doneMsg)
    else if ex = "bybit" then
      match (pRetryRun bybitRetries (fetch.bybit sym)).1 with
      | .error msg => (store, .serverError msg)
      | .ok none => (store, .ok doneMsg)
      | .ok (some raws) => (insertAll store (raws.map (bybitTrade sym now)), .ok doneMsg)
    else (store, .ok doneMsg)

/-- `GET /api/top-clusters` (src/server/index.js:160-168): resolve the
query parameters with their defaults and call `computeClusters`.
`limit` reaches `.slice(0, limit)`; for the non-negative values at play
JavaScript truncates it to an integer, modelled with `⌊·⌋.toNat`. -/
def topClustersHandler (store : List Trade) (now : ℚ)
    (symbol exchange : Option String) (limit periodMs bucket : NumParam) :
    String × String × List Bucket :=
  let sym := jsStrOr symbol "BTCUSDT"
  let ex := jsStrOr exchange "binance"
  (sym, ex,
    computeClusters store sym ex now (resolvePeriodMs periodMs) (resolveBucket bucket)
      (⌊resolveLimit limit⌋.toNat))

/-!
### Theorems
-/

attribute [local semireducible] Rat.add Rat.mul Rat.inv Rat.ofScientific Rat.sub

/-- C3: trade-store insert is idempotent — inserting a trade whose `id` is
already present leaves the store (hence the stored content for that id)
unchanged; the operation is a total function, so no error is raised. -/
theorem insertTrade_duplicate_id_noop (store : List Trade) (t u : Trade)
    (hu : u ∈ store) (hid : u.id = t.id) :
    insertTrade store t = store := by
  unfold insertTrade
  have h : store.any (fun v => v.id == t.id) = true :=
    List.any_eq_true.2 ⟨u, hu, by simp [hid]⟩
  simp [h]

/-- Witness for C3 at a concrete store: a second trade with id `"id1"` but
different content is a no-op. -/
theorem insertTrade_duplicate_id_noop_witness :
    insertTrade [⟨"id1", "binance", "BTCUSDT", 100, 1, "buy", 5⟩]
        ⟨"id1", "binance", "BTCUSDT", 200, 2, "sell", 6⟩
      = [⟨"id1", "binance", "BTCUSDT", 100, 1, "buy", 5⟩] :=
  insertTrade_duplicate_id_noop _ _ ⟨"id1", "binance", "BTCUSDT", 100, 1, "buy", 5⟩
    (by decide) rfl

/-- C6: a query whose (symbol, exchange, time-window) filter matches zero
stored trades yields the empty cluster sequence (and, being a total
function, raises no error). -/
theorem empty_window_yields_empty (store : List Trade) (symbol exchange : String)
    (now periodMs bucketSize : ℚ) (limit : ℕ)
    (h : store.filter (tradeMatches symbol exchange (now - periodMs)) = []) :
    computeClusters store symbol exchange now periodMs bucketSize limit = [] := by
  unfold computeClusters
  simp [h]

/-- Witness for C6: a store holding only an `ETHUSDT` trade outside the
window matches nothing for a `BTCUSDT` query, and the aggregation is
empty. -/
theorem empty_window_yields_empty_witness :
    ([⟨"x", "binance", "ETHUSDT", 100, 1, "buy", 50⟩] : List Trade).filter
        (tradeMatches "BTCUSDT" "binance" (100 - 10)) = []
    ∧ computeClusters [⟨"x", "binance", "ETHUSDT", 100, 1, "buy", 50⟩]
        "BTCUSDT" "binance" 100 10 1 50 = [] :=
  ⟨by decide, empty_window_yields_empty _ _ _ _ _ _ _ (by decide)⟩

/-- C10: at the HTTP boundary a numeric parameter that is omitted,
non-numeric, or equal to `0` is silently replaced by its default:
`limit → 50`, `periodMs → 86400000`, `bucket → 1`, `startTs → now - 24h`,
`endTs → now`; in particular an explicit `0` for `startTs`/`endTs` is
indistinguishable from an omitted parameter. -/
theorem numeric_param_defaults (now : ℚ) :
    (resolveLimit .missing = 50 ∧ resolveLimit .nan = 50 ∧ resolveLimit (.num 0) = 50)
    ∧ (resolvePeriodMs .missing = 86400000 ∧ resolvePeriodMs .nan = 86400000
        ∧ resolvePeriodMs (.num 0) = 86400000)
    ∧ (resolveBucket .missing = 1 ∧ resolveBucket .nan = 1 ∧ resolveBucket (.num 0) = 1)
    ∧ (resolveStartTs .missing now = now - 86400000 ∧ resolveStartTs .nan now = now - 86400000
        ∧ resolveStartTs (.num 0) now = now - 86400000)
    ∧ (resolveEndTs .missing now = now ∧ resolveEndTs .nan now = now
        ∧ resolveEndTs (.num 0) now = now)
    ∧ resolveStartTs (.num 0) now = resolveStartTs .missing now
    ∧ resolveEndTs (.num 0) now = resolveEndTs .missing now := by
  refine ⟨⟨rfl, rfl, ?_⟩, ⟨?_, ?_, ?_⟩, ⟨rfl, rfl, ?_⟩, ⟨?_, ?_, ?_⟩, ⟨rfl, rfl, ?_⟩, ?_, ?_⟩ <;>
    simp [resolveLimit, resolvePeriodMs, resolveBucket, resolveStartTs, resolveEndTs, jsNumOr] <;>
    norm_num

/-- C9: side normalization — binance maps exactly `m === true`
(buyer-is-maker) to `sell`; OKX maps exactly the case-sensitive strings
`'sell'` and `'S'` to `sell`; Bybit maps exactly the case-sensitive string
`'Sell'` to `sell`; every other encoding yields `buy` (the side is always
one of the two), and in particular wrong-case markers yield `buy`. -/
theorem side_normalization :
    (∀ (symbol : String) (now : ℚ) (t : BinanceRaw),
        ((binanceTrade symbol now t).side = "sell" ↔ t.m = .jbool true)
        ∧ ((binanceTrade symbol now t).side = "sell" ∨ (binanceTrade symbol now t).side = "buy"))
    ∧ (∀ (symbol : String) (now : ℚ) (t : OkxRaw),
        ((okxTrade symbol now t).side = "sell" ↔ (t.side = .jstr "sell" ∨ t.side = .jstr "S"))
        ∧ ((okxTrade symbol now t).side = "sell" ∨ (okxTrade symbol now t).side = "buy"))
    ∧ (∀ (symbol : String) (now : ℚ) (t : BybitRaw),
        ((bybitTrade symbol now t).side = "sell" ↔ t.side = .jstr "Sell")
        ∧ ((bybitTrade symbol now t).side = "sell" ∨ (bybitTrade symbol now t).side = "buy"))
    ∧ (okxTrade "BTCUSDT" 0 ⟨.jnum 1, .undef, 1, .jnum 1, .undef, .jstr "SELL", 0⟩).side = "buy"
    ∧ (bybitTrade "BTCUSDT" 0 ⟨.jnum 1, 1, .jnum 1, .undef, .jstr "sell", 0⟩).side = "buy" := by
  refine ⟨fun symbol now t => ?_, fun symbol now t => ?_, fun symbol now t => ?_,
    by decide, by decide⟩ <;>
  · constructor
    · simp only [binanceTrade, okxTrade, bybitTrade]
      split_ifs with h <;> simp [h]
    · simp only [binanceTrade, okxTrade, bybitTrade]
      split_ifs <;> simp

/-- Upper bound on the attempts consumed by the p-retry loop. -/
theorem pRetryAux_attempts_le {α : Type} (op : ℕ → Except String α) :
    ∀ (fuel used : ℕ), (pRetryAux op used fuel).2 ≤ used + fuel := by
  intro fuel
  induction fuel with
  | zero => intro used; simp [pRetryAux]
  | succ n ih =>
    intro used
    cases hop : op used with
    | ok a => simp [pRetryAux, hop]
    | error e =>
      by_cases hn : n = 0
      · subst hn; simp [pRetryAux, hop]
      · simp only [pRetryAux, hop]
        rw [if_neg hn]
        exact (ih (used + 1)).trans (by omega)

/-- C8 (amended): a binance window's connector call makes at most
`binanceRetries + 1 = 4` attempts, with at least 500ms between attempts
(`minTimeout 500`, exponential factor 2); the recent-only OKX/Bybit calls
make at most `2 + 1 = 3` attempts. -/
theorem retry_attempt_budget :
    (∀ (α : Type) (op : ℕ → Except String α), (pRetryRun binanceRetries op).2 ≤ 4)
    ∧ (∀ (α : Type) (op : ℕ → Except String α), (pRetryRun okxRetries op).2 ≤ 3)
    ∧ (∀ (α : Type) (op : ℕ → Except String α), (pRetryRun bybitRetries op).2 ≤ 3)
    ∧ (∀ i : ℕ, 500 ≤ pRetryTimeout binanceMinTimeout pRetryFactor i) := by
  refine ⟨fun α op => ?_, fun α op => ?_, fun α op => ?_, fun i => ?_⟩
  · exact (pRetryAux_attempts_le op (binanceRetries + 1) 0).trans (by decide)
  · exact (pRetryAux_attempts_le op (okxRetries + 1) 0).trans (by decide)
  · exact (pRetryAux_attempts_le op (bybitRetries + 1) 0).trans (by decide)
  · have h : 1 ≤ 2 ^ i := Nat.one_le_two_pow
    calc 500 = 500 * 1 := by omega
    _ ≤ 500 * 2 ^ i := Nat.mul_le_mul_left 500 h
    _ = pRetryTimeout binanceMinTimeout pRetryFactor i := rfl

/-- An operation that fails on attempts 0, 1, 2 and succeeds on attempt 3:
with the code's `{retries: 3}` a fourth attempt is made. -/
def failsThrice (_s _e : ℚ) (i : ℕ) : Except String (List BinanceRaw) :=
  if i < 3 then .error "down" else .ok []

/-- An operation that fails on attempts 0 and 1 and succeeds on attempt 2:
with the code's `{retries: 2}` a third attempt is made. -/
def failsTwice (i : ℕ) : Except String (Option (List OkxRaw)) :=
  if i < 2 then .error "down" else .ok none

/-- C8 counterexample: the claim caps a range window at 3 attempts total
and a recent-only fetch at 2; but with `{retries: 3}` a binance window
fetch whose first three attempts fail still succeeds on a 4th attempt,
and with `{retries: 2}` an OKX fetch whose first two attempts fail
succeeds on a 3rd attempt. -/
theorem retry_attempt_budget_claim_false :
    retriedBinanceFetch failsThrice 0 1 = .ok []
    ∧ pRetryRun binanceRetries (failsThrice 0 1) = (.ok [], 4)
    ∧ (pRetryRun okxRetries failsTwice).1 = .ok none
    ∧ pRetryRun okxRetries failsTwice = (.ok none, 3) := by
  refine ⟨rfl, rfl, rfl, rfl⟩

/-- A connector environment whose every call fails (never consulted by the
unknown-exchange path). -/
def failingFetch : BackfillFetch :=
  { binance := fun _ _ _ _ => .error "network"
    okx := fun _ _ => .error "network"
    bybit := fun _ _ => .error "network" }

/-- C2 counterexample: the claim demands that an unknown exchange fail
fast with an `UnknownExchange` error; but a backfill for exchange
`"kraken"` matches no branch of the `if/else if` chain and completes
successfully with `ok: true`, inserting nothing. -/
theorem unknown_exchange_claim_false :
    backfillHandler failingFetch [⟨"id1", "binance", "BTCUSDT", 100, 1, "buy", 5⟩] 7
        (some "ETHUSDT") (some "kraken") (.num 3) (.num 9)
      = ([⟨"id1", "binance", "BTCUSDT", 100, 1, "buy", 5⟩], .ok doneMsg) := by
  decide

/-- C2 (amended): a backfill request with non-empty `symbol` and an
`exchange` that names no known connector (not `binance`, `okx` or
`bybit`) performs no fetch and no insert and reports success
(`ok: true`), rather than failing with an error. -/
theorem unknown_exchange_reports_success (fetch : BackfillFetch) (store : List Trade)
    (now : ℚ) (sym ex : String) (startTs endTs : NumParam)
    (hsym : sym ≠ "") (hex : ex ≠ "")
    (h1 : ex ≠ "binance") (h2 : ex ≠ "okx") (h3 : ex ≠ "bybit") :
    backfillHandler fetch store now (some sym) (some ex) startTs endTs
      = (store, .ok doneMsg) := by
  unfold backfillHandler
  simp [optTruthy, hsym, hex, h1, h2, h3]

/-- Witness for C2 (amended) at a concrete unknown exchange. -/
theorem unknown_exchange_reports_success_witness :
    backfillHandler failingFetch [] 0 (some "BTCUSDT") (some "coinbase") .missing .missing
      = ([], .ok doneMsg) :=
  unknown_exchange_reports_success failingFetch [] 0 "BTCUSDT" "coinbase" .missing .missing
    (by decide) (by decide) (by decide) (by decide) (by decide)

/-- A binance payload entry carrying the aggregate id `n`, used by the C1
scenarios. -/
def c1Raw (n : ℚ) : BinanceRaw :=
  { a := .jnum n, aggregateId := .undef, tradeId := .undef, p := 100, q := 1,
    m := .jbool false, T := .jnum 1000, rand := 0 }

/-- A connector environment for the C1 scenarios: the 1h window starting
at `3600000` succeeds with one trade, the window starting at `7200000`
fails on every attempt, the window starting at `10800000` would succeed
with another trade. -/
def c1Fetch : BackfillFetch :=
  { binance := fun _sym s _e _i =>
      if s == 3600000 then .ok [c1Raw 1]
      else if s == 7200000 then .error "boom"
      else .ok [c1Raw 3]
    okx := fun _ _ => .error "network"
    bybit := fun _ _ => .error "network" }

/-- C1 counterexample: the claim says a window whose retries are exhausted
is skipped, later windows are still ingested, and the call reports
success.  In fact, backfilling `[3600000, 14400000)` (three 1h windows)
where the middle window always fails leaves only the first window's trade
in the store — the third window's trade is absent — and the call reports a
500 server error, not success. -/
theorem backfill_window_failure_claim_false :
    backfillHandler c1Fetch [] 0 (some "BTCUSDT") (some "binance")
        (.num 3600000) (.num 14400000)
      = ([binanceTrade "BTCUSDT" 0 (c1Raw 1)], .serverError "boom")
    ∧ binanceTrade "BTCUSDT" 0 (c1Raw 3)
        ∉ (backfillHandler c1Fetch [] 0 (some "BTCUSDT") (some "binance")
            (.num 3600000) (.num 14400000)).1 := by
  refine ⟨by decide, by decide⟩

/-- The window loop stops at the first window whose retried fetch fails:
the result keeps exactly the inserts of the earlier windows and reports
that window's error; later windows are never fetched. -/
theorem runBinanceWindows_append_error
    (fetch : ℚ → ℚ → ℕ → Except String (List BinanceRaw)) (symbol : String) (now : ℚ)
    (ws1 : List (ℚ × ℚ)) (s e : ℚ) (ws2 : List (ℚ × ℚ)) (store : List Trade) (msg : String)
    (hok : ∀ w ∈ ws1, ∃ data, retriedBinanceFetch fetch w.1 w.2 = Except.ok data)
    (herr : retriedBinanceFetch fetch s e = Except.error msg) :
    runBinanceWindows fetch symbol now (ws1 ++ (s, e) :: ws2) store
      = ((runBinanceWindows fetch symbol now ws1 store).1, some msg) := by
  induction ws1 generalizing store with
  | nil => simp [runBinanceWindows, herr]
  | cons w ws ih =>
    obtain ⟨a, b⟩ := w
    obtain ⟨data, hdata⟩ := hok (a, b) (List.mem_cons_self _ _)
    simp only [List.cons_append, runBinanceWindows, hdata]
    apply ih
    intro w hw
    exact hok w (List.mem_cons_of_mem _ hw)

/-- C1 (amended): during a range backfill, if one window's fetch fails
after all retry attempts are exhausted, the orchestrator does not continue:
the call aborts at that window, the store keeps exactly the trades
inserted by the windows before the failure, the remaining windows are
never processed, and the call reports a 500 server error rather than
success. -/
theorem backfill_window_failure_aborts_call (fetch : BackfillFetch) (store : List Trade)
    (now : ℚ) (sym : String) (startTs endTs : NumParam)
    (ws1 ws2 : List (ℚ × ℚ)) (s e : ℚ) (msg : String)
    (hsym : sym ≠ "")
    (hsplit : binanceWindows (resolveStartTs startTs now) (resolveEndTs endTs now)
        = ws1 ++ (s, e) :: ws2)
    (hok : ∀ w ∈ ws1, ∃ data, retriedBinanceFetch (fetch.binance sym) w.1 w.2 = Except.ok data)
    (herr : retriedBinanceFetch (fetch.binance sym) s e = Except.error msg) :
    backfillHandler fetch store now (some sym) (some "binance") startTs endTs
      = ((runBinanceWindows (fetch.binance sym) sym now ws1 store).1, .serverError msg) := by
  unfold backfillHandler
  simp only [optTruthy, Option.getD, hsplit,
    runBinanceWindows_append_error (fetch.binance sym) sym now ws1 s e ws2 store msg hok herr]
  simp [hsym]

/-- Witness for C1 (amended): the concrete three-window scenario, started
from a non-empty store. -/
theorem backfill_window_failure_aborts_call_witness :
    backfillHandler c1Fetch [⟨"seed", "okx", "BTCUSDT", 9, 1, "buy", 4⟩] 0
        (some "BTCUSDT") (some "binance") (.num 3600000) (.num 14400000)
      = ([⟨"seed", "okx", "BTCUSDT", 9, 1, "buy", 4⟩, binanceTrade "BTCUSDT" 0 (c1Raw 1)],
          .serverError "boom") := by
  have h := backfill_window_failure_aborts_call c1Fetch
      [⟨"seed", "okx", "BTCUSDT", 9, 1, "buy", 4⟩] 0 "BTCUSDT"
      (.num 3600000) (.num 14400000)
      [(3600000, 7199999)] [(10800000, 14399999)] 7200000 10799999 "boom"
      (by decide) (by decide)
      (by
        intro w hw
        have hw2 : w = ((3600000 : ℚ), (7199999 : ℚ)) := by
          simpa using hw
        subst hw2
        exact ⟨[c1Raw 1], rfl⟩)
      rfl
  exact h.trans (by decide)

/-- Membership in an `insertDesc` result. -/
theorem mem_insertDesc {x z : Bucket} :
    ∀ {l : List Bucket}, z ∈ insertDesc x l ↔ z = x ∨ z ∈ l := by
  intro l
  induction l with
  | nil => simp [insertDesc]
  | cons y ys ih =>
    by_cases h : y.volume < x.volume
    · simp [insertDesc, h]
    · simp only [insertDesc, if_neg h, List.mem_cons, ih]
      tauto

/-- `insertDesc` preserves descending-by-volume sortedness. -/
theorem insertDesc_sorted {x : Bucket} :
    ∀ {l : List Bucket}, l.Pairwise (fun a b => b.volume ≤ a.volume) →
      (insertDesc x l).Pairwise (fun a b => b.volume ≤ a.volume) := by
  intro l
  induction l with
  | nil => intro _; simp [insertDesc]
  | cons y ys ih =>
    intro h
    rw [List.pairwise_cons] at h
    obtain ⟨hy, hys⟩ := h
    by_cases hv : y.volume < x.volume
    · rw [insertDesc, if_pos hv,  List.pairwise_cons]
      refine ⟨?_, List.pairwise_cons.2 ⟨hy, hys⟩⟩
      intro z hz
      rcases List.mem_cons.1 hz with rfl | hz2
      · exact le_of_lt hv
      · exact (hy z hz2).trans (le_of_lt hv)
    · rw [insertDesc, if_neg hv, List.pairwise_cons]
      refine ⟨?_, ih hys⟩
      intro z hz
      rcases mem_insertDesc.1 hz with rfl | hz2
      · exact le_of_not_lt hv
      · exact hy z hz2

/-- The fold underlying `sortByVolume` keeps the accumulator sorted. -/
theorem foldl_insertDesc_sorted (l : List Bucket) :
    ∀ acc : List Bucket, acc.Pairwise (fun a b => b.volume ≤ a.volume) →
      (l.foldl (fun acc x => insertDesc x acc) acc).Pairwise (fun a b => b.volume ≤ a.volume) := by
  induction l with
  | nil => intro acc h; simpa using h
  | cons x xs ih => intro acc h; exact ih _ (insertDesc_sorted h)

/-- `sortByVolume` sorts descending by volume. -/
theorem sortByVolume_sorted (l : List Bucket) :
    (sortByVolume l).Pairwise (fun a b => b.volume ≤ a.volume) :=
  foldl_insertDesc_sorted l [] (by simp)

/-- Membership through the `sortByVolume` fold. -/
theorem mem_foldl_insertDesc {z : Bucket} (l : List Bucket) :
    ∀ acc : List Bucket,
      (z ∈ l.foldl (fun acc x => insertDesc x acc) acc ↔ z ∈ acc ∨ z ∈ l) := by
  induction l with
  | nil => intro acc; simp
  | cons x xs ih =>
    intro acc
    rw [List.foldl_cons, ih, mem_insertDesc, List.mem_cons]
    tauto

/-- `sortByVolume` is a reordering: it has exactly the members of its
input. -/
theorem mem_sortByVolume {z : Bucket} {l : List Bucket} :
    z ∈ sortByVolume l ↔ z ∈ l := by
  rw [sortByVolume, mem_foldl_insertDesc]
  simp

/-- The store holding the C5 ranking example: three trades in distinct
price buckets with quantities 5, 20 and 1. -/
def rankStore : List Trade :=
  [⟨"a", "E", "S", 10, 5, "buy", 0⟩, ⟨"b", "E", "S", 20, 20, "buy", 0⟩,
   ⟨"c", "E", "S", 30, 1, "buy", 0⟩]

/-- C5: `topClusters` output is descending by volume with length at most
`limit`; in particular for buckets with volumes {5, 20, 1} and `limit = 2`
it is exactly the two highest-volume buckets in descending order. -/
theorem topClusters_sorted_and_bounded :
    (∀ (store : List Trade) (symbol exchange : String) (now periodMs bucketSize : ℚ)
        (limit : ℕ),
        (computeClusters store symbol exchange now periodMs bucketSize limit).length ≤ limit
        ∧ (computeClusters store symbol exchange now periodMs bucketSize limit).Pairwise
            (fun a b => b.volume ≤ a.volume))
    ∧ computeClusters rankStore "S" "E" 0 1 1 2 = [⟨20, 20, 0⟩, ⟨10, 5, 0⟩] := by
  constructor
  · intro store symbol exchange now periodMs bucketSize limit
    unfold computeClusters
    by_cases h : (store.filter (tradeMatches symbol exchange (now - periodMs))).isEmpty
    · simp [h]
    · rw [if_neg h]
      constructor
      · exact (List.length_take_le _ _)
      · exact (sortByVolume_sorted _).sublist (List.take_sublist _ _)
  · decide

/-- C7: a trade with timestamp older than `now - periodMs` never
contributes to any bucket: deleting all such trades from the store leaves
the aggregation unchanged. -/
theorem old_trades_never_contribute (store : List Trade) (symbol exchange : String)
    (now periodMs bucketSize : ℚ) (limit : ℕ) :
    computeClusters (store.filter (fun t => decide (now - periodMs ≤ t.ts)))
        symbol exchange now periodMs bucketSize limit
      = computeClusters store symbol exchange now periodMs bucketSize limit := by
  unfold computeClusters
  have key : (store.filter (fun t => decide (now - periodMs ≤ t.ts))).filter
      (tradeMatches symbol exchange (now - periodMs))
      = store.filter (tradeMatches symbol exchange (now - periodMs)) := by
    rw [List.filter_filter]
    apply List.filter_congr
    intro t _
    by_cases h : now - periodMs ≤ t.ts
    · simp [h]
    · simp [tradeMatches, h]
  dsimp only
  rw [key]

/-- The volume stored for the bucket keyed `k` (0 if the key is absent),
reading the first entry with that price, as the JS `Map` does. -/
def volumeAt (k : ℚ) : List Bucket → ℚ
  | [] => 0
  | b :: bs => if b.price = k then b.volume else volumeAt k bs

/-- How one accumulation step changes the volume at each key. -/
theorem volumeAt_addToBuckets (pb k qty ts : ℚ) :
    ∀ m : List Bucket,
      volumeAt k (addToBuckets pb qty ts m) = volumeAt k m + (if k = pb then qty else 0) := by
  intro m
  induction m with
  | nil =>
    by_cases h : k = pb
    · simp [addToBuckets, volumeAt, h]
    · simp [addToBuckets, volumeAt, h, Ne.symm h]
  | cons b bs ih =>
    by_cases hb : b.price = pb
    · rw [addToBuckets, if_pos hb]
      by_cases hk : b.price = k
      · have hkpb : k = pb := by rw [← hk, hb]
        simp [volumeAt, hk, hkpb]
      · have hkpb : k ≠ pb := by
          intro h2
          exact hk (by rw [hb, ← h2])
        simp [volumeAt, hk, hkpb]
    · rw [addToBuckets, if_neg hb]
      by_cases hk : b.price = k
      · have hkpb : k ≠ pb := by
          intro h2
          exact hb (by rw [hk, h2])
        simp [volumeAt, hk, hkpb]
      · simp only [volumeAt, if_neg hk]
        exact ih

/-- The accumulated volume at key `k` after folding a row list is the sum
of the quantities of the rows whose bucket price is `k`. -/
theorem volumeAt_foldl (bucketSize k : ℚ) :
    ∀ (rows : List Trade) (m : List Bucket),
      volumeAt k (rows.foldl (fun m r => addToBuckets (bucketOf bucketSize r.price) r.qty r.ts m) m)
        = volumeAt k m
          + ((rows.filter (fun r => bucketOf bucketSize r.price == k)).map Trade.qty).sum := by
  intro rows
  induction rows with
  | nil => intro m; simp
  | cons r rs ih =>
    intro m
    rw [List.foldl_cons, ih, volumeAt_addToBuckets]
    by_cases h : bucketOf bucketSize r.price = k
    · rw [List.filter_cons_of_pos (by simp [h])]
      simp [h.symm]
      ring
    · rw [List.filter_cons_of_neg (by simp [h])]
      have : k ≠ bucketOf bucketSize r.price := Ne.symm h
      simp [this]

/-- Every price in an `addToBuckets` result is the inserted key or a price
already present. -/
theorem price_mem_addToBuckets {pb qty ts x : ℚ} :
    ∀ {m : List Bucket}, x ∈ (addToBuckets pb qty ts m).map Bucket.price →
      x = pb ∨ x ∈ m.map Bucket.price := by
  intro m
  induction m with
  | nil => simp [addToBuckets]
  | cons b bs ih =>
    by_cases hb : b.price = pb
    · rw [addToBuckets, if_pos hb]
      simp only [List.map_cons, List.mem_cons]
      tauto
    · rw [addToBuckets, if_neg hb]
      simp only [List.map_cons, List.mem_cons]
      intro h
      rcases h with h | h
      · tauto
      · rcases ih h with h2 | h2 <;> tauto

/-- Accumulation never duplicates a bucket key. -/
theorem keys_nodup_addToBuckets (pb qty ts : ℚ) :
    ∀ m : List Bucket, (m.map Bucket.price).Nodup →
      ((addToBuckets pb qty ts m).map Bucket.price).Nodup := by
  intro m
  induction m with
  | nil => intro _; simp [addToBuckets]
  | cons b bs ih =>
    intro h
    rw [List.map_cons, List.nodup_cons] at h
    obtain ⟨hb_not, hbs⟩ := h
    by_cases hb : b.price = pb
    · rw [addToBuckets, if_pos hb]
      rw [List.map_cons, List.nodup_cons]
      exact ⟨hb_not, hbs⟩
    · rw [addToBuckets, if_neg hb]
      rw [List.map_cons, List.nodup_cons]
      refine ⟨?_, ih hbs⟩
      intro hmem
      rcases price_mem_addToBuckets hmem with h2 | h2
      · exact hb h2
      · exact hb_not h2

/-- The bucket map built from any row list has pairwise-distinct keys. -/
theorem keys_nodup_buildBuckets (bucketSize : ℚ) (rows : List Trade) :
    ((buildBuckets bucketSize rows).map Bucket.price).Nodup := by
  rw [buildBuckets]
  generalize hm : ([] : List Bucket) = m
  have hnd : (m.map Bucket.price).Nodup := by rw [← hm]; simp
  clear hm
  induction rows generalizing m with
  | nil => simpa using hnd
  | cons r rs ih => exact ih _ (keys_nodup_addToBuckets _ _ _ _ hnd)

/-- With distinct keys, the lookup at a member's price finds that member. -/
theorem volumeAt_of_mem {b : Bucket} :
    ∀ {m : List Bucket}, (m.map Bucket.price).Nodup → b ∈ m →
      volumeAt b.price m = b.volume := by
  intro m
  induction m with
  | nil => intro _ h; cases h
  | cons c cs ih =>
    intro hnd hmem
    rw [List.map_cons, List.nodup_cons] at hnd
    obtain ⟨hc_not, hcs⟩ := hnd
    rcases List.mem_cons.1 hmem with rfl | hmem2
    · simp [volumeAt]
    · have hne : c.price ≠ b.price := by
        intro hcontra
        exact hc_not (hcontra ▸ List.mem_map_of_mem Bucket.price hmem2)
      rw [volumeAt, if_neg hne]
      exact ih hcs hmem2

/-- The store holding the C4 bucketing example: prices 100.2, 100.4 and
100.6 with quantity 1 each. -/
def roundStore : List Trade :=
  [⟨"r1", "E", "S", 100.2, 1, "buy", 5⟩, ⟨"r2", "E", "S", 100.4, 1, "buy", 6⟩,
   ⟨"r3", "E", "S", 100.6, 1, "buy", 7⟩]

/-- C4: each trade is assigned the bucket
`round(price / bucketSize) * bucketSize` where the rounding is to the
nearest integer (distance at most 1/2) with ties rounded up — away from
zero on the non-negative half — and each returned bucket's volume is the
sum of the quantities of the in-window trades mapping to it; in
particular prices {100.2, 100.4, 100.6} with quantity 1 and bucket size 1
yield bucket 100 with volume 2 ranked first and bucket 101 with volume
1. -/
theorem clusters_bucket_rounding_and_sums :
    (∀ x : ℚ, |x - (jround x : ℚ)| ≤ 1 / 2)
    ∧ (∀ n : ℕ, jround ((n : ℚ) + 1 / 2) = (n : ℤ) + 1)
    ∧ (∀ (store : List Trade) (symbol exchange : String) (now periodMs bucketSize : ℚ)
        (limit : ℕ) (b : Bucket),
        b ∈ computeClusters store symbol exchange now periodMs bucketSize limit →
        b.volume = (((store.filter (tradeMatches symbol exchange (now - periodMs))).filter
            (fun r => bucketOf bucketSize r.price == b.price)).map Trade.qty).sum)
    ∧ computeClusters roundStore "S" "E" 10 100 1 100 = [⟨100, 2, 6⟩, ⟨101, 1, 7⟩] := by
  refine ⟨?_, ?_, ?_, by decide⟩
  · intro x
    have h : jround x = round x := (round_eq x).symm
    rw [h]
    exact abs_sub_round x
  · intro n
    have h : (n : ℚ) + 1 / 2 + 1 / 2 = ((n + 1 : ℤ) : ℚ) := by push_cast; ring
    rw [jround, h, Int.floor_intCast]
  · intro store symbol exchange now periodMs bucketSize limit b hmem
    unfold computeClusters at hmem
    dsimp only at hmem
    by_cases h : (store.filter (tradeMatches symbol exchange (now - periodMs))).isEmpty
    · simp [h] at hmem
    · rw [if_neg h] at hmem
      have hmem2 : b ∈ buildBuckets bucketSize
          (store.filter (tradeMatches symbol exchange (now - periodMs))) :=
        mem_sortByVolume.1 (List.take_subset _ _ hmem)
      have hvol : volumeAt b.price (buildBuckets bucketSize
          (store.filter (tradeMatches symbol exchange (now - periodMs)))) = b.volume :=
        volumeAt_of_mem (keys_nodup_buildBuckets _ _) hmem2
      have hsum := volumeAt_foldl bucketSize b.price
        (store.filter (tradeMatches symbol exchange (now - periodMs))) []
      rw [buildBuckets] at hvol
      rw [hvol] at hsum
      simpa [volumeAt] using hsum

/-- Witness for C4's membership-sum component: the volume 2 of the
100-bucket in the concrete example equals the quantity sum of the trades
that round to 100. -/
theorem clusters_bucket_rounding_and_sums_witness :
    (⟨100, 2, 6⟩ : Bucket) ∈ computeClusters roundStore "S" "E" 10 100 1 100
    ∧ (⟨100, 2, 6⟩ : Bucket).volume
        = (((roundStore.filter (tradeMatches "S" "E" (10 - 100))).filter
            (fun r => bucketOf 1 r.price == (⟨100, 2, 6⟩ : Bucket).price)).map Trade.qty).sum :=
  ⟨by decide,
    clusters_bucket_rounding_and_sums.2.2.1 roundStore "S" "E" 10 100 1 100 ⟨100, 2, 6⟩
      (by decide)⟩

end Wash
